import Mathlib

/-!
Verification of the rendition-selection and acquisition pipeline of
`server.js` (a YouTube download server).

The definitions below are a shallow embedding of the JavaScript source:

* `MediaFormat` models one entry of `info.formats` (a rendition), with the
  fields the pipeline inspects: `hasVideo`, `hasAudio`, `height`,
  `audioBitrate`, `contentLength` (the spec's `sizeHint`).
* the filter functions mirror the `Array.prototype.filter` calls at
  `server.js` lines 447, 548, 577 and 346;
* `sortDescBy` models the stable JavaScript `Array.prototype.sort` with the
  comparator `(a, b) => b.key - a.key` (descending, ties keep catalog order);
* `selectSingleFormat`, `selectVideoFormat`, `selectAudioFormat` model the
  format-selection logic of `downloadMP4`, `downloadAndMergeMP4` and
  `downloadMP3`;
* `downloadMP4Run` / `downloadAndMergeRun` give a trace semantics for the
  download pipeline: given the outcome of each external effect (the injected
  stream fetcher and the ffmpeg merge) they produce the list of filesystem
  and response events the code performs, in the order it performs them;
* `videoInfoLookup` is the unrolled retry loop of the `/api/video-info`
  handler (`maxAttempts = 3`, `setTimeout(..., 1000 * attempts)`);
* `sanitizeFilename` mirrors
  `filename.replace(/[<>:"\/\\|?*]/g, '_').replace(/\s+/g, '_')`.
-/

namespace Ytback

/-- One element of `info.formats`: an encoded rendition of the source media.
`height` and `audioBitrate` are JavaScript numbers that may be absent
(`Option Nat`); `contentLength` is the byte-size hint whose presence the
filters test. `itag` is the opaque stable identifier. -/
structure MediaFormat where
  itag : Nat
  hasVideo : Bool
  hasAudio : Bool
  height : Option Nat
  audioBitrate : Option Nat
  contentLength : Option Nat
deriving DecidableEq, Repr

/-- JavaScript truthiness of a numeric field: `undefined` and `0` are falsy.
Used where the source writes `f.height && ...` style tests. -/
def numTruthy (o : Option Nat) : Bool := o.getD 0 != 0

/-- `info.formats.filter(f => f.hasVideo && f.hasAudio && f.height && f.contentLength)`
(server.js line 447). -/
def videoWithAudioFormats (formats : List MediaFormat) : List MediaFormat :=
  formats.filter fun f =>
    f.hasVideo && f.hasAudio && numTruthy f.height && f.contentLength.isSome

/-- `info.formats.filter(f => f.hasVideo && !f.hasAudio && f.height && f.contentLength)`
(server.js line 548). -/
def videoOnlyFormats (formats : List MediaFormat) : List MediaFormat :=
  formats.filter fun f =>
    f.hasVideo && !f.hasAudio && numTruthy f.height && f.contentLength.isSome

/-- `info.formats.filter(f => !f.hasVideo && f.hasAudio && f.audioBitrate && f.contentLength)`
(server.js lines 346 and 577: `downloadMP3` and `downloadAndMergeMP4` use the
same filter expression). -/
def audioOnlyFormats (formats : List MediaFormat) : List MediaFormat :=
  formats.filter fun f =>
    !f.hasVideo && f.hasAudio && numTruthy f.audioBitrate && f.contentLength.isSome

/-- Insert `f` into a list already sorted in descending `key` order, after
every element whose key is strictly larger and before the first element whose
key is `≤ key f`.  Together with `sortDescBy` this reproduces the stable
descending sort `arr.sort((a, b) => b.key - a.key)` of the source: elements
with equal keys keep their original (catalog) order. -/
def insertDescBy (key : MediaFormat → Nat) (f : MediaFormat) :
    List MediaFormat → List MediaFormat
  | [] => [f]
  | g :: gs => if key f < key g then g :: insertDescBy key f gs else f :: g :: gs

/-- Stable descending sort by `key`; models `arr.sort((a, b) => b.key - a.key)`
(JavaScript `Array.prototype.sort` is stable). -/
def sortDescBy (key : MediaFormat → Nat) (l : List MediaFormat) : List MediaFormat :=
  l.foldr (insertDescBy key) []

/-- The requested output quality. The source receives it as the string
`req.body.quality`: `"best"`, `"«h»p"` (video height) or `"«k»kbps"`
(audio bitrate); the inductive models the three shapes. -/
inductive Quality
  | best
  | videoP (h : Nat)
  | audioKbps (k : Nat)
deriving DecidableEq, Repr

/-- `downloadMP4` / `downloadAndMergeMP4` target height: the source tests
`quality !== 'best' && quality.includes('p')` and then
`parseInt(quality.replace('p', ''))`.  Note `"«k»kbps".includes('p')` is also
true and `parseInt("«k»kbs")` stops at the first non-digit, so an audio
quality string sent to the MP4 path yields the bitrate number as the target
height; the model reproduces that. -/
def targetHeightOf : Quality → Option Nat
  | .best => none
  | .videoP h => some h
  | .audioKbps k => some k

/-- `downloadMP3` transcode bitrate: the source tests
`quality !== 'best' && quality.includes('kbps')` and parses the number,
defaulting to 192 (server.js lines 376-379). -/
def mp3Bitrate : Quality → Nat
  | .audioKbps k => k
  | _ => 192

/-- The combined-format selection of `downloadMP4` (server.js lines 460-481):
with a target height, first an exact `f.height === targetHeight` match via
`find`, else the head of the descending sort of the formats with
`f.height <= targetHeight`; with no target height, the head of the descending
sort of all video+audio formats. -/
def selectSingleFormat (formats : List MediaFormat) (targetHeight : Option Nat) :
    Option MediaFormat :=
  let vwa := videoWithAudioFormats formats
  match targetHeight with
  | some t =>
    match vwa.find? (fun f => f.height == some t) with
    | some f => some f
    | none =>
      (sortDescBy (fun f => f.height.getD 0)
        (vwa.filter (fun f => f.height.getD 0 ≤ t))).head?
  | none => (sortDescBy (fun f => f.height.getD 0) vwa).head?

/-- The video-only selection of `downloadAndMergeMP4` (server.js lines
560-574): exact height match, else closest below, else (no target) the
highest quality. -/
def selectVideoFormat (formats : List MediaFormat) (targetHeight : Option Nat) :
    Option MediaFormat :=
  let vo := videoOnlyFormats formats
  match targetHeight with
  | some t =>
    match vo.find? (fun f => f.height == some t) with
    | some f => some f
    | none =>
      (sortDescBy (fun f => f.height.getD 0)
        (vo.filter (fun f => f.height.getD 0 ≤ t))).head?
  | none => (sortDescBy (fun f => f.height.getD 0) vo).head?

/-- The audio-only selection used by both `downloadAndMergeMP4` (line 588)
and `downloadMP3` (line 362):
`audioOnlyFormats.sort((a, b) => b.audioBitrate - a.audioBitrate)[0]`. -/
def selectAudioFormat (formats : List MediaFormat) : Option MediaFormat :=
  (sortDescBy (fun f => f.audioBitrate.getD 0) (audioOnlyFormats formats)).head?

/-- Specification-side helper: the first element of the list (catalog order)
whose `key` is maximal.  Used to characterise what the stable descending
sort's head actually returns. -/
def firstMaxBy (key : MediaFormat → Nat) : List MediaFormat → Option MediaFormat
  | [] => none
  | f :: fs =>
    match firstMaxBy key fs with
    | none => some f
    | some g => if key f < key g then some g else some f

/-- Outcome of one external effect (a stream transfer or the ffmpeg run). -/
inductive FetchResult
  | ok
  | err
deriving DecidableEq, Repr

/-- The outcomes of the external effects a `downloadMP4` request can perform:
the single-stream transfer, the two fallback stream transfers, and the ffmpeg
merge.  The pipeline itself is deterministic given these. -/
structure Env where
  singleFetch : FetchResult
  videoFetch : FetchResult
  audioFetch : FetchResult
  mergeRun : FetchResult
deriving DecidableEq, Repr

/-- The three filesystem paths one request touches, by role.  `pathString`
below gives the concrete names the source builds from the sanitized title. -/
inductive RolePath
  | artifact
  | tempVideo
  | tempAudio
deriving DecidableEq, Repr

/-- The concrete file names of `downloadMP4` / `downloadAndMergeMP4`
(server.js lines 428-429 and 532-535): the caller-visible artifact is
`«title».mp4` and the temporaries are `«title»_temp_video.mp4` and
`«title»_temp_audio.mp4`, all inside the downloads directory. -/
def pathString (title : String) : RolePath → String
  | .artifact => title ++ ".mp4"
  | .tempVideo => title ++ "_temp_video.mp4"
  | .tempAudio => title ++ "_temp_audio.mp4"

/-- One observable step of the pipeline: starting/finishing/failing a stream
write to a path, starting/finishing/failing the ffmpeg merge whose output is
a path, removing a path (`fs.unlinkSync` guarded by `fs.existsSync`), or
sending the single HTTP response. -/
inductive Event
  | fetchStart (p : RolePath) (f : MediaFormat)
  | fetchEnd (p : RolePath)
  | fetchFail (p : RolePath)
  | mergeStart (p : RolePath)
  | mergeEnd (p : RolePath)
  | mergeFail (p : RolePath)
  | unlink (p : RolePath)
  | respond (success : Bool)
deriving DecidableEq, Repr

/-- Trace of `downloadAndMergeMP4` (server.js lines 531-676): select a
video-only and an audio-only format (throwing, i.e. responding with failure
after removing the temporaries, when either is missing); download the video
stream to the video temp path, then the audio stream to the audio temp path
(each `await pipeline(...)`, a mid-stream error jumping to the catch block
which unlinks both temporaries and responds 500); then run the ffmpeg merge
writing the artifact path, whose end/error callbacks both unlink the two
temporaries and send the response. -/
def downloadAndMergeRun (formats : List MediaFormat) (quality : Quality)
    (env : Env) : List Event :=
  match selectVideoFormat formats (targetHeightOf quality),
        selectAudioFormat formats with
  | some vf, some af =>
    match env.videoFetch with
    | .err =>
      [.fetchStart .tempVideo vf, .fetchFail .tempVideo,
       .unlink .tempVideo, .unlink .tempAudio, .respond false]
    | .ok =>
      .fetchStart .tempVideo vf :: .fetchEnd .tempVideo ::
      match env.audioFetch with
      | .err =>
        [.fetchStart .tempAudio af, .fetchFail .tempAudio,
         .unlink .tempVideo, .unlink .tempAudio, .respond false]
      | .ok =>
        .fetchStart .tempAudio af :: .fetchEnd .tempAudio ::
        match env.mergeRun with
        | .ok =>
          [.mergeStart .artifact, .mergeEnd .artifact,
           .unlink .tempVideo, .unlink .tempAudio, .respond true]
        | .err =>
          [.mergeStart .artifact, .mergeFail .artifact,
           .unlink .tempVideo, .unlink .tempAudio, .respond false]
  | _, _ => [.unlink .tempVideo, .unlink .tempAudio, .respond false]

/-- Trace of `downloadMP4` (server.js lines 427-528): select a combined
video+audio format; if one exists, stream it directly to the artifact path
(`await pipeline(videoStream, fs.createWriteStream(filepath))`) and respond
success, a mid-stream error falling back to `downloadAndMergeMP4` once; if
none exists, go straight to `downloadAndMergeMP4`. -/
def downloadMP4Run (formats : List MediaFormat) (quality : Quality)
    (env : Env) : List Event :=
  match selectSingleFormat formats (targetHeightOf quality) with
  | some sf =>
    match env.singleFetch with
    | .ok => [.fetchStart .artifact sf, .fetchEnd .artifact, .respond true]
    | .err =>
      .fetchStart .artifact sf :: .fetchFail .artifact ::
      downloadAndMergeRun formats quality env
  | none => downloadAndMergeRun formats quality env

/-- State of one file on disk: never written, partially written (a write
started but did not finish, or failed mid-way), or completely written. -/
inductive FileState
  | absent
  | incomplete
  | complete
deriving DecidableEq, Repr

/-- Effect of one event on the file at path `p`. -/
def applyEvent (p : RolePath) (st : FileState) : Event → FileState
  | .fetchStart q _ => if q = p then .incomplete else st
  | .fetchEnd q => if q = p then .complete else st
  | .fetchFail q => if q = p then .incomplete else st
  | .mergeStart q => if q = p then .incomplete else st
  | .mergeEnd q => if q = p then .complete else st
  | .mergeFail q => if q = p then .incomplete else st
  | .unlink q => if q = p then .absent else st
  | .respond _ => st

/-- State of the file at `p` after running a trace from state `st`. -/
def runState (p : RolePath) (st : FileState) (tr : List Event) : FileState :=
  tr.foldl (applyEvent p) st

/-- State of the file at `p` after running a trace on a fresh request
(no pre-existing files). -/
def stateAt (p : RolePath) (tr : List Event) : FileState :=
  runState p .absent tr

/-- Does this event start the ffmpeg merge? -/
def isMergeStart : Event → Bool
  | .mergeStart _ => true
  | _ => false

/-- Does this event start a stream write to path `p`? -/
def isFetchStartAt (p : RolePath) : Event → Bool
  | .fetchStart q _ => q == p
  | _ => false

/-- Does this event finish a stream write to path `p`? -/
def isFetchEndAt (p : RolePath) : Event → Bool
  | .fetchEnd q => q == p
  | _ => false

/-- Is this event the HTTP response? -/
def isRespond : Event → Bool
  | .respond _ => true
  | _ => false

/-- The prefix of the trace strictly before the first event satisfying
`cond`. -/
def beforeFirst (cond : Event → Bool) (tr : List Event) : List Event :=
  tr.takeWhile (fun e => !cond e)

/-- Outcome of one `ytdl.getInfo` call inside the `/api/video-info` retry
loop: success, a definitive error whose message contains `Video unavailable`,
or any other error. -/
inductive LookupOutcome
  | ok
  | errUnavailable
  | errOther
deriving DecidableEq, Repr

/-- Terminal result of the retry loop: the info was obtained, the handler
returned the 400 "not available for download" response, or the last error
was re-thrown (surfacing as the 500 handler). -/
inductive LookupResult
  | success
  | unavailableResponse
  | thrown
deriving DecidableEq, Repr

/-- What the retry loop did: its terminal result, how many `getInfo` attempts
it made, and the backoff sleeps (in milliseconds) it performed between
attempts. -/
structure RetryRun where
  result : LookupResult
  attempts : Nat
  delaysMs : List Nat
deriving DecidableEq, Repr

/-- The `/api/video-info` retry loop (server.js lines 100-143), unrolled for
its literal `maxAttempts = 3`: `while (attempts < maxAttempts)` try
`getInfo`; on error increment `attempts`; if `attempts >= maxAttempts`,
return the 400 unavailable response when the (final) error message contains
`Video unavailable`, else re-throw; otherwise sleep `1000 * attempts`
milliseconds and retry.  `out i` is the outcome of attempt `i`
(zero-indexed). -/
def videoInfoLookup (out : Nat → LookupOutcome) : RetryRun :=
  match out 0 with
  | .ok => ⟨.success, 1, []⟩
  | _ =>
    match out 1 with
    | .ok => ⟨.success, 2, [1000]⟩
    | _ =>
      match out 2 with
      | .ok => ⟨.success, 3, [1000, 2000]⟩
      | .errUnavailable => ⟨.unavailableResponse, 3, [1000, 2000]⟩
      | .errOther => ⟨.thrown, 3, [1000, 2000]⟩

/-- The characters of the class `[<>:"\/\\|?*]` in `sanitizeFilename`
(server.js line 74). -/
def isForbiddenChar (c : Char) : Bool :=
  c = '<' || c = '>' || c = ':' || c = '\"' || c = '/' || c = '\\' ||
  c = '|' || c = '?' || c = '*'

/-- JavaScript `\s` (no `u` flag): tab, line feed, vertical tab, form feed,
carriage return, space, no-break space, ogham space mark, the en-quad block
U+2000-U+200A, line separator, paragraph separator, narrow no-break space,
medium mathematical space, ideographic space, and the BOM. -/
def isJsWhitespace (c : Char) : Bool :=
  c = '\t' || c = '\n' || c = '\x0B' || c = '\x0C' || c = '\r' || c = ' ' ||
  c = '\u00A0' || c = '\u1680' || ('\u2000' ≤ c && c ≤ '\u200A') ||
  c = '\u2028' || c = '\u2029' || c = '\u202F' || c = '\u205F' ||
  c = '\u3000' || c = '\uFEFF'

/-- `filename.replace(/[<>:"\/\\|?*]/g, '_')`: each forbidden character
becomes one underscore. -/
def replaceForbidden (s : String) : String :=
  ⟨s.data.map (fun c => if isForbiddenChar c then '_' else c)⟩

/-- Worker for `.replace(/\s+/g, '_')`: the flag records whether we are
inside a whitespace run that has already emitted its underscore. -/
def collapseWsAux : Bool → List Char → List Char
  | _, [] => []
  | inRun, c :: cs =>
    if isJsWhitespace c then
      if inRun then collapseWsAux true cs
      else '_' :: collapseWsAux true cs
    else c :: collapseWsAux false cs

/-- `s.replace(/\s+/g, '_')`: each maximal run of whitespace becomes a single
underscore. -/
def collapseWhitespace (s : String) : String :=
  ⟨collapseWsAux false s.data⟩

/-- `sanitizeFilename` (server.js lines 73-75):
`filename.replace(/[<>:"\/\\|?*]/g, '_').replace(/\s+/g, '_')`. -/
def sanitizeFilename (s : String) : String :=
  collapseWhitespace (replaceForbidden s)

/-- Claim-side formalisation of "each such character is replaced by an
underscore": the character-wise map sending every forbidden or whitespace
character to one underscore each. -/
def charwiseSanitize (s : String) : String :=
  ⟨s.data.map (fun c => if isForbiddenChar c || isJsWhitespace c then '_' else c)⟩

/-- A combined (video+audio) rendition of the given height, used as a
concrete test input. -/
def cFmt (h : Nat) : MediaFormat :=
  ⟨1, true, true, some h, none, some 1000⟩

/-- A combined rendition with explicit itag, height and size hint, used for
the tie-break counterexample. -/
def cFmtS (i h len : Nat) : MediaFormat :=
  ⟨i, true, true, some h, none, some len⟩

/-- A video-only rendition of the given height. -/
def vFmt (h : Nat) : MediaFormat :=
  ⟨3, true, false, some h, none, some 800⟩

/-- An audio-only rendition with the given itag and bitrate. -/
def aFmt (i k : Nat) : MediaFormat :=
  ⟨i, false, true, none, some k, some 500⟩

/-- The all-successful environment. -/
def envOk : Env := ⟨.ok, .ok, .ok, .ok⟩

/-- Environment in which the single-stream transfer fails mid-stream and
everything else succeeds. -/
def envSingleErr : Env := ⟨.err, .ok, .ok, .ok⟩

/-! ## General lemmas about the embedded operations -/

theorem mem_of_headEq {l : List MediaFormat} {x : MediaFormat}
    (h : l.head? = some x) : x ∈ l := by
  cases l with
  | nil => simp at h
  | cons a as =>
    simp only [List.head?_cons, Option.some.injEq] at h
    exact h ▸ List.mem_cons_self a as

theorem mem_insertDescBy (key : MediaFormat → Nat) (f x : MediaFormat) :
    ∀ l : List MediaFormat, x ∈ insertDescBy key f l ↔ x = f ∨ x ∈ l := by
  intro l
  induction l with
  | nil => simp [insertDescBy]
  | cons g gs ih =>
    simp only [insertDescBy]
    split <;> (simp only [List.mem_cons, ih]; try tauto)

theorem mem_sortDescBy (key : MediaFormat → Nat) (x : MediaFormat) :
    ∀ l : List MediaFormat, x ∈ sortDescBy key l ↔ x ∈ l := by
  intro l
  induction l with
  | nil => simp [sortDescBy]
  | cons f fs ih =>
    show x ∈ insertDescBy key f (sortDescBy key fs) ↔ _
    rw [mem_insertDescBy, ih]
    simp [List.mem_cons, eq_comm]

/-- The head of the stable descending sort is the first element of the
original list attaining the maximal key: equal keys are never reordered and
nothing but the key participates in the ordering. -/
theorem sortDescBy_head (key : MediaFormat → Nat) :
    ∀ l : List MediaFormat, (sortDescBy key l).head? = firstMaxBy key l := by
  intro l
  induction l with
  | nil => rfl
  | cons f fs ih =>
    show (insertDescBy key f (sortDescBy key fs)).head? = _
    rw [firstMaxBy, ← ih]
    cases sortDescBy key fs with
    | nil => rfl
    | cons g gs =>
      simp only [insertDescBy, List.head?_cons]
      split <;> simp

theorem selectSingle_mem {formats : List MediaFormat} {th : Option Nat}
    {sf : MediaFormat} (h : selectSingleFormat formats th = some sf) :
    sf ∈ videoWithAudioFormats formats := by
  unfold selectSingleFormat at h
  rcases th with _ | t
  · exact (mem_sortDescBy _ _ _).mp (mem_of_headEq h)
  · simp only at h
    split at h
    · rename_i f hfind
      injection h with h
      exact h ▸ List.mem_of_find?_eq_some hfind
    · have := mem_of_headEq h
      rw [mem_sortDescBy] at this
      exact (List.mem_filter.mp this).1

theorem selectVideo_mem {formats : List MediaFormat} {th : Option Nat}
    {vf : MediaFormat} (h : selectVideoFormat formats th = some vf) :
    vf ∈ videoOnlyFormats formats := by
  unfold selectVideoFormat at h
  rcases th with _ | t
  · exact (mem_sortDescBy _ _ _).mp (mem_of_headEq h)
  · simp only at h
    split at h
    · rename_i f hfind
      injection h with h
      exact h ▸ List.mem_of_find?_eq_some hfind
    · have := mem_of_headEq h
      rw [mem_sortDescBy] at this
      exact (List.mem_filter.mp this).1

theorem selectAudio_mem {formats : List MediaFormat} {af : MediaFormat}
    (h : selectAudioFormat formats = some af) :
    af ∈ audioOnlyFormats formats := by
  exact (mem_sortDescBy _ _ _).mp (mem_of_headEq h)

theorem videoWithAudio_flags {formats : List MediaFormat} {f : MediaFormat}
    (h : f ∈ videoWithAudioFormats formats) :
    f.hasVideo = true ∧ f.hasAudio = true := by
  have := (List.mem_filter.mp h).2
  simp only [Bool.and_eq_true] at this
  exact ⟨this.1.1.1, this.1.1.2⟩

theorem videoOnly_flags {formats : List MediaFormat} {f : MediaFormat}
    (h : f ∈ videoOnlyFormats formats) :
    f.hasVideo = true ∧ f.hasAudio = false := by
  have := (List.mem_filter.mp h).2
  simp only [Bool.and_eq_true, Bool.not_eq_true'] at this
  exact ⟨this.1.1.1, this.1.1.2⟩

theorem audioOnly_flags {formats : List MediaFormat} {f : MediaFormat}
    (h : f ∈ audioOnlyFormats formats) :
    f.hasVideo = false ∧ f.hasAudio = true := by
  have := (List.mem_filter.mp h).2
  simp only [Bool.and_eq_true, Bool.not_eq_true'] at this
  exact ⟨this.1.1.1, this.1.1.2⟩

theorem mem_collapseWsAux {c : Char} :
    ∀ (l : List Char) (b : Bool), c ∈ collapseWsAux b l →
      c = '_' ∨ (isJsWhitespace c = false ∧ c ∈ l) := by
  intro l
  induction l with
  | nil => intro b h; simp [collapseWsAux] at h
  | cons a as ih =>
    intro b h
    rw [collapseWsAux] at h
    split at h
    · split at h
      · rcases ih true h with h' | ⟨h1, h2⟩
        · exact Or.inl h'
        · exact Or.inr ⟨h1, List.mem_cons_of_mem _ h2⟩
      · rcases List.mem_cons.mp h with hc | hc
        · exact Or.inl hc
        · rcases ih true hc with h' | ⟨h1, h2⟩
          · exact Or.inl h'
          · exact Or.inr ⟨h1, List.mem_cons_of_mem _ h2⟩
    · rename_i hw
      have hw' : isJsWhitespace a = false := by simpa using hw
      rcases List.mem_cons.mp h with hc | hc
      · subst hc
        exact Or.inr ⟨hw', List.mem_cons_self _ _⟩
      · rcases ih false hc with h' | ⟨h1, h2⟩
        · exact Or.inl h'
        · exact Or.inr ⟨h1, List.mem_cons_of_mem _ h2⟩

theorem collapseWsAux_noWs {l : List Char}
    (h : ∀ c ∈ l, isJsWhitespace c = false) :
    ∀ b, collapseWsAux b l = l := by
  induction l with
  | nil => intro b; rfl
  | cons a as ih =>
    intro b
    rw [collapseWsAux, if_neg (by simp [h a (List.mem_cons_self a as)])]
    rw [ih (fun c hc => h c (List.mem_cons_of_mem _ hc)) false]

theorem mem_replaceForbidden {c : Char} {s : String}
    (h : c ∈ (replaceForbidden s).data) :
    c = '_' ∨ isForbiddenChar c = false := by
  simp only [replaceForbidden] at h
  rcases List.mem_map.mp h with ⟨a, _, ha⟩
  by_cases hf : isForbiddenChar a
  · left; rw [← ha, if_pos hf]
  · right; rw [← ha, if_neg hf]; simpa using hf

theorem replaceForbidden_id {s : String}
    (h : ∀ c ∈ s.data, isForbiddenChar c = false) :
    replaceForbidden s = s := by
  have hmap : ∀ l : List Char, (∀ c ∈ l, isForbiddenChar c = false) →
      l.map (fun c => if isForbiddenChar c then '_' else c) = l := by
    intro l hl
    induction l with
    | nil => rfl
    | cons a as ih =>
      simp only [List.map_cons, List.cons.injEq]
      refine ⟨by simp [hl a (List.mem_cons_self a as)], ?_⟩
      exact ih (fun c hc => hl c (List.mem_cons_of_mem _ hc))
  unfold replaceForbidden
  rw [hmap s.data h]

theorem collapseWhitespace_id {s : String}
    (h : ∀ c ∈ s.data, isJsWhitespace c = false) :
    collapseWhitespace s = s := by
  unfold collapseWhitespace
  rw [collapseWsAux_noWs h false]

/-- Every character of `sanitizeFilename`'s output is neither forbidden nor
whitespace. -/
theorem sanitize_clean {s : String} {c : Char}
    (h : c ∈ (sanitizeFilename s).data) :
    isForbiddenChar c = false ∧ isJsWhitespace c = false := by
  have h' : c ∈ collapseWsAux false (replaceForbidden s).data := h
  rcases mem_collapseWsAux _ _ h' with hc | ⟨hws, hmem⟩
  · subst hc
    exact ⟨by decide, by decide⟩
  · refine ⟨?_, hws⟩
    rcases mem_replaceForbidden hmem with hc | hf
    · subst hc; decide
    · exact hf

/-! ## Claim theorems -/

/-- C10 counterexample: the claim's "each such character is replaced by an
underscore" fails on whitespace runs.  On `"a  b"` (two spaces) the source's
`.replace(/\s+/g, '_')` collapses the run to a single underscore, so
`sanitizeFilename` returns `"a_b"`, not the character-wise `"a__b"`. -/
theorem c10_counterexample :
    sanitizeFilename "a  b" = "a_b" ∧ charwiseSanitize "a  b" = "a__b" ∧
    sanitizeFilename "a  b" ≠ charwiseSanitize "a  b" := by
  refine ⟨by decide, by decide, by decide⟩

/-- C10 (amended): for every input string, `sanitizeFilename` returns a
string containing none of the characters `< > : " / \ | ? *` and no
whitespace characters (each forbidden character is replaced by an underscore
and each maximal whitespace run by a single underscore), and
`sanitizeFilename` is idempotent. -/
theorem c10_amended (s : String) :
    ((sanitizeFilename s).data.all
      (fun c => !isForbiddenChar c && !isJsWhitespace c)) = true ∧
    sanitizeFilename (sanitizeFilename s) = sanitizeFilename s := by
  constructor
  · rw [List.all_eq_true]
    intro c hc
    rcases sanitize_clean hc with ⟨h1, h2⟩
    simp [h1, h2]
  · show collapseWhitespace (replaceForbidden (sanitizeFilename s)) = _
    rw [replaceForbidden_id (fun c hc => (sanitize_clean hc).1)]
    exact collapseWhitespace_id (fun c hc => (sanitize_clean hc).2)

/-- C5 counterexample: a lookup whose every attempt fails definitively with
`Video unavailable` is still retried: the loop makes all 3 attempts, sleeping
1s then 2s in between, before the 400 "unavailable" response is produced.
The claim's "surfaced immediately without further attempts" (one attempt, no
backoff) is false. -/
theorem c5_counterexample :
    videoInfoLookup (fun _ => .errUnavailable) =
      ⟨.unavailableResponse, 3, [1000, 2000]⟩ ∧
    (videoInfoLookup (fun _ => .errUnavailable)).attempts ≠ 1 ∧
    (videoInfoLookup (fun _ => .errUnavailable)).delaysMs ≠ [] := by
  refine ⟨rfl, by decide, by decide⟩

/-- C5 (amended): the initial metadata lookup is retried up to 3 attempts
with linear backoff of 1 second × attempt number on any lookup error,
including a definitive `Video unavailable` error; the "resource unavailable"
classification is applied only after all 3 attempts have failed and only
when the final attempt's error is the definitive one. -/
theorem c5_amended (out : Nat → LookupOutcome) :
    (videoInfoLookup out).attempts ≤ 3 ∧
    (videoInfoLookup out).delaysMs =
      (List.range ((videoInfoLookup out).attempts - 1)).map
        (fun i => 1000 * (i + 1)) ∧
    ((videoInfoLookup out).result = .unavailableResponse ↔
      out 0 ≠ .ok ∧ out 1 ≠ .ok ∧ out 2 = .errUnavailable) ∧
    ((videoInfoLookup out).result = .success ↔
      out 0 = .ok ∨ out 1 = .ok ∨ out 2 = .ok) := by
  rcases h0 : out 0 <;> rcases h1 : out 1 <;> rcases h2 : out 2 <;>
    simp [videoInfoLookup, h0, h1, h2] <;> decide

/-- C3 counterexample: an `AudioOnly` request for exactly 128 kbps with an
exact 128 kbps rendition available does not get that rendition: `downloadMP3`
always takes the maximum bitrate (here the 160 kbps rendition). -/
theorem c3_counterexample :
    selectAudioFormat [aFmt 1 128, aFmt 2 160] = some (aFmt 2 160) ∧
    selectAudioFormat [aFmt 1 128, aFmt 2 160] ≠ some (aFmt 1 128) := by
  refine ⟨by decide, by decide⟩

/-- C3 (amended): for every `AudioOnly` request the Selector always returns
the audio-only rendition with the maximum `audioBitrateKbps` (first in
catalog order on ties), independent of the quality preference; a requested
`ExactAudioBitrate(k)` only sets the ffmpeg transcode output bitrate to `k`
(192 when `Best`), it never influences which rendition is fetched. -/
theorem c3_amended (formats : List MediaFormat) (k : Nat) :
    selectAudioFormat formats =
      firstMaxBy (fun f => f.audioBitrate.getD 0) (audioOnlyFormats formats) ∧
    mp3Bitrate (.audioKbps k) = k ∧ mp3Bitrate .best = 192 := by
  exact ⟨sortDescBy_head _ _, rfl, rfl⟩

/-- C6 counterexample: two combined renditions share height 720; the first in
catalog order has the smaller `contentLength` (100 vs 200).  The claim says
the Selector prefers the larger `sizeHint`, i.e. the second; the code's
stable sort ignores `contentLength` entirely and keeps catalog order, picking
the first. -/
theorem c6_counterexample :
    selectSingleFormat [cFmtS 1 720 100, cFmtS 2 720 200] none =
      some (cFmtS 1 720 100) ∧
    selectSingleFormat [cFmtS 1 720 100, cFmtS 2 720 200] none ≠
      some (cFmtS 2 720 200) := by
  refine ⟨by decide, by decide⟩

/-- C6 (amended): when multiple candidate renditions share the same
`videoHeightPx` (or `audioBitrateKbps`), the Selector picks the one
encountered first in catalog order; `sizeHint` is only tested for presence in
the filters and never participates in the ordering.  Formally: each selection
is the first element of its candidate list attaining the maximal key. -/
theorem c6_amended (formats : List MediaFormat) (t : Nat) :
    selectSingleFormat formats none =
      firstMaxBy (fun f => f.height.getD 0) (videoWithAudioFormats formats) ∧
    selectAudioFormat formats =
      firstMaxBy (fun f => f.audioBitrate.getD 0) (audioOnlyFormats formats) ∧
    ((videoWithAudioFormats formats).find? (fun f => f.height == some t) = none →
      selectSingleFormat formats (some t) =
        firstMaxBy (fun f => f.height.getD 0)
          ((videoWithAudioFormats formats).filter
            (fun f => f.height.getD 0 ≤ t))) := by
  refine ⟨sortDescBy_head _ _, sortDescBy_head _ _, fun h => ?_⟩
  unfold selectSingleFormat
  simp only [h]
  exact sortDescBy_head _ _

/-- C2 counterexample: with `A = [cFmt 1080]` (non-empty) and requested
height 720 (no element of `A` has height ≤ 720), the claim says the Selector
picks the maximum of `A` (the 1080p rendition) as `SingleStream`; the code
instead finds no combined candidate and falls through to the dual-stream
path. -/
theorem c2_counterexample :
    videoWithAudioFormats [cFmt 1080] ≠ [] ∧
    selectSingleFormat [cFmt 1080] (some 720) ≠ some (cFmt 1080) ∧
    selectSingleFormat [cFmt 1080] (some 720) = none ∧
    downloadMP4Run [cFmt 1080] (.videoP 720) envOk =
      downloadAndMergeRun [cFmt 1080] (.videoP 720) envOk := by
  refine ⟨by decide, by decide, by decide, by decide⟩

/-- C2 (amended): for an `ExactVideoHeight(h)` request, when no combined
rendition has height ≤ h the Selector yields *no* combined candidate (the
max-height rule is applied only for `Best`, i.e. no target height) and the
request falls through to the dual-stream merge path. -/
theorem c2_amended (formats : List MediaFormat) (h : Nat) (env : Env)
    (hhigh : ∀ f ∈ videoWithAudioFormats formats, ¬ (f.height.getD 0 ≤ h)) :
    selectSingleFormat formats (some h) = none ∧
    downloadMP4Run formats (.videoP h) env =
      downloadAndMergeRun formats (.videoP h) env := by
  have hfind : (videoWithAudioFormats formats).find?
      (fun f => f.height == some h) = none := by
    rw [List.find?_eq_none]
    intro f hf
    simp only [beq_iff_eq]
    intro heq
    exact hhigh f hf (by rw [heq]; simp)
  have hfilter : (videoWithAudioFormats formats).filter
      (fun f => f.height.getD 0 ≤ h) = [] := by
    rw [List.filter_eq_nil_iff]
    intro f hf
    simpa using hhigh f hf
  have hsel : selectSingleFormat formats (some h) = none := by
    unfold selectSingleFormat
    simp only [hfind, hfilter]
    rfl
  refine ⟨hsel, ?_⟩
  show downloadMP4Run formats (.videoP h) env = _
  unfold downloadMP4Run
  have : targetHeightOf (.videoP h) = some h := rfl
  rw [this, hsel]

/-- C2 witness: the amended theorem at the concrete input (only a 1080p
combined rendition, requested height 720). -/
theorem c2_amended_witness :
    selectSingleFormat [cFmt 1080] (some 720) = none ∧
    downloadMP4Run [cFmt 1080] (.videoP 720) envOk =
      downloadAndMergeRun [cFmt 1080] (.videoP 720) envOk :=
  c2_amended [cFmt 1080] 720 envOk (by decide)

/-- C4 counterexample: the rendition list holds a usable video-only 1080p
rendition and a usable audio-only 128 kbps rendition (and no combined
rendition at all), with requested height 720.  The claim says the Selector
returns `DualStream`; the code's dual-stream video selection only accepts
heights ≤ 720, finds nothing, and the run is the no-plan failure (both
temporaries unlinked, failure response, no fetch ever started). -/
theorem c4_counterexample :
    videoWithAudioFormats [vFmt 1080, aFmt 1 128] = [] ∧
    videoOnlyFormats [vFmt 1080, aFmt 1 128] ≠ [] ∧
    audioOnlyFormats [vFmt 1080, aFmt 1 128] ≠ [] ∧
    downloadAndMergeRun [vFmt 1080, aFmt 1 128] (.videoP 720) envOk =
      [.unlink .tempVideo, .unlink .tempAudio, .respond false] := by
  refine ⟨by decide, by decide, by decide, by decide⟩

/-- C4 (amended): the dual-stream path returns `DualStream` (its video fetch
is started) exactly when the exact-or-closest-below video-only selection
*and* the max-bitrate audio-only selection both yield a rendition; when
either selection is empty — in particular when every video-only rendition
exceeds the requested height — the result is the no-plan failure. -/
theorem c4_amended (formats : List MediaFormat) (quality : Quality) (env : Env) :
    (∀ vf af, selectVideoFormat formats (targetHeightOf quality) = some vf →
      selectAudioFormat formats = some af →
      Event.fetchStart .tempVideo vf ∈ downloadAndMergeRun formats quality env) ∧
    ((selectVideoFormat formats (targetHeightOf quality) = none ∨
      selectAudioFormat formats = none) →
      downloadAndMergeRun formats quality env =
        [.unlink .tempVideo, .unlink .tempAudio, .respond false]) := by
  obtain ⟨es, ev, ea, em⟩ := env
  constructor
  · intro vf af hv ha
    simp only [downloadAndMergeRun, hv, ha]
    cases ev <;> cases ea <;> cases em <;> simp
  · intro hor
    rcases hv : selectVideoFormat formats (targetHeightOf quality) with _ | vf <;>
      rcases ha : selectAudioFormat formats with _ | af
    · simp only [downloadAndMergeRun, hv, ha]
    · simp only [downloadAndMergeRun, hv, ha]
    · simp only [downloadAndMergeRun, hv, ha]
    · rcases hor with h | h <;> simp_all

/-- C4 witness: the amended theorem's dual-stream half at a concrete input
with a 720p video-only rendition and a 128 kbps audio-only rendition. -/
theorem c4_amended_witness :
    Event.fetchStart .tempVideo (vFmt 720) ∈
      downloadAndMergeRun [vFmt 720, aFmt 1 128] (.videoP 720) envOk :=
  (c4_amended [vFmt 720, aFmt 1 128] (.videoP 720) envOk).1 (vFmt 720)
    (aFmt 1 128) (by decide) (by decide)

/-- If the merge path emits a success response, the artifact file is
completely written at the end of its trace, whatever state the artifact path
started in. -/
theorem mergeRun_success_state (formats : List MediaFormat) (quality : Quality)
    (env : Env) (st : FileState)
    (hs : Event.respond true ∈ downloadAndMergeRun formats quality env) :
    runState .artifact st (downloadAndMergeRun formats quality env) =
      .complete := by
  obtain ⟨es, ev, ea, em⟩ := env
  rcases hv : selectVideoFormat formats (targetHeightOf quality) with _ | vf <;>
    rcases ha : selectAudioFormat formats with _ | af <;>
    simp only [downloadAndMergeRun, hv, ha] at hs ⊢ <;>
    cases ev <;> cases ea <;> cases em <;>
    simp_all [runState, applyEvent]

/-- C1 counterexample: a request whose only rendition is a combined 720p
stream, whose direct transfer to the public path `«title».mp4` fails
mid-stream.  The fallback finds no video-only rendition and the request ends
in a failure response — yet the partially written file is still sitting at
the caller-visible artifact path (nothing renames or removes it; only the
24-hour sweep would). -/
theorem c1_counterexample :
    Event.respond false ∈ downloadMP4Run [cFmt 720] .best envSingleErr ∧
    stateAt .artifact (downloadMP4Run [cFmt 720] .best envSingleErr) =
      .incomplete := by
  refine ⟨by decide, by decide⟩

/-- C1 (amended): the pipeline streams bytes directly to the caller-visible
artifact path — there is no separate working path and no rename step.  On
every run that reports success the artifact file is completely written, but a
failed run can leave a partially written file at the public path (removed
only by the periodic age sweep). -/
theorem c1_amended (formats : List MediaFormat) (quality : Quality) (env : Env)
    (hs : Event.respond true ∈ downloadMP4Run formats quality env) :
    stateAt .artifact (downloadMP4Run formats quality env) = .complete := by
  obtain ⟨es, ev, ea, em⟩ := env
  rcases hsel : selectSingleFormat formats (targetHeightOf quality) with _ | sf
  · simp only [downloadMP4Run, hsel] at hs ⊢
    exact mergeRun_success_state _ _ _ _ hs
  · cases es with
    | ok =>
      simp only [downloadMP4Run, hsel]
      simp [stateAt, runState, applyEvent]
    | err =>
      simp only [downloadMP4Run, hsel] at hs ⊢
      simp only [List.mem_cons] at hs
      rcases hs with h | h | h
      · exact absurd h (by simp)
      · exact absurd h (by simp)
      · show runState .artifact .absent (_ :: _ :: _) = _
        simp only [runState, List.foldl_cons]
        exact mergeRun_success_state _ _ ⟨.err, ev, ea, em⟩ _ h

/-- C1 witness: a fully successful single-stream run leaves a completely
written artifact at the public path. -/
theorem c1_amended_witness :
    stateAt .artifact (downloadMP4Run [cFmt 720] .best envOk) = .complete :=
  c1_amended [cFmt 720] .best envOk (by decide)

/-- C7: whenever the dual-stream pipeline reaches the merge step, both
temporary files are completely written immediately before it, and neither
temporary file exists at the end of the run — whether the merge succeeded or
failed (both the `end` and `error` ffmpeg callbacks unlink both
temporaries). -/
theorem c7_theorem (formats : List MediaFormat) (quality : Quality) (env : Env)
    (hm : (downloadAndMergeRun formats quality env).any isMergeStart = true) :
    stateAt .tempVideo
      (beforeFirst isMergeStart (downloadAndMergeRun formats quality env)) =
      .complete ∧
    stateAt .tempAudio
      (beforeFirst isMergeStart (downloadAndMergeRun formats quality env)) =
      .complete ∧
    stateAt .tempVideo (downloadAndMergeRun formats quality env) = .absent ∧
    stateAt .tempAudio (downloadAndMergeRun formats quality env) = .absent := by
  obtain ⟨es, ev, ea, em⟩ := env
  rcases hv : selectVideoFormat formats (targetHeightOf quality) with _ | vf <;>
    rcases ha : selectAudioFormat formats with _ | af <;>
    simp only [downloadAndMergeRun, hv, ha] at hm ⊢ <;>
    cases ev <;> cases ea <;> cases em <;>
    simp_all [stateAt, runState, applyEvent, beforeFirst, isMergeStart]

/-- C7 witness: the theorem at a concrete all-successful dual-stream run. -/
theorem c7_witness :
    stateAt .tempVideo
      (beforeFirst isMergeStart
        (downloadAndMergeRun [vFmt 720, aFmt 1 128] .best envOk)) =
      .complete ∧
    stateAt .tempAudio
      (beforeFirst isMergeStart
        (downloadAndMergeRun [vFmt 720, aFmt 1 128] .best envOk)) =
      .complete ∧
    stateAt .tempVideo (downloadAndMergeRun [vFmt 720, aFmt 1 128] .best envOk) =
      .absent ∧
    stateAt .tempAudio (downloadAndMergeRun [vFmt 720, aFmt 1 128] .best envOk) =
      .absent :=
  c7_theorem [vFmt 720, aFmt 1 128] .best envOk (by decide)

/-- C9 counterexample: in a concrete dual-stream run the audio fetch does
start, and every event before its start already includes the *completion* of
the video fetch: the two transfers are strictly sequenced
(`await pipeline(video)` finishes before the audio stream is even created),
refuting "run in parallel as independent suspendable operations, unordered
relative to each other". -/
theorem c9_counterexample :
    (downloadAndMergeRun [vFmt 720, aFmt 1 128] .best envOk).any
      (isFetchStartAt .tempAudio) = true ∧
    (beforeFirst (isFetchStartAt .tempAudio)
      (downloadAndMergeRun [vFmt 720, aFmt 1 128] .best envOk)).any
      (isFetchEndAt .tempVideo) = true := by
  refine ⟨by decide, by decide⟩

/-- C9 (amended): within one dual-stream request the two fetches run
sequentially — the audio fetch starts only after the video fetch has
completed — and the merge starts only after both fetches have completed. -/
theorem c9_amended (formats : List MediaFormat) (quality : Quality) (env : Env) :
    ((downloadAndMergeRun formats quality env).any
        (isFetchStartAt .tempAudio) = true →
      (beforeFirst (isFetchStartAt .tempAudio)
        (downloadAndMergeRun formats quality env)).any
        (isFetchEndAt .tempVideo) = true) ∧
    ((downloadAndMergeRun formats quality env).any isMergeStart = true →
      (beforeFirst isMergeStart (downloadAndMergeRun formats quality env)).any
        (isFetchEndAt .tempVideo) = true ∧
      (beforeFirst isMergeStart (downloadAndMergeRun formats quality env)).any
        (isFetchEndAt .tempAudio) = true) := by
  obtain ⟨es, ev, ea, em⟩ := env
  rcases hv : selectVideoFormat formats (targetHeightOf quality) with _ | vf <;>
    rcases ha : selectAudioFormat formats with _ | af <;>
    simp only [downloadAndMergeRun, hv, ha] <;>
    cases ev <;> cases ea <;> cases em <;>
    simp [beforeFirst, isMergeStart, isFetchStartAt, isFetchEndAt]

/-- C9 witness: the amended theorem's merge-ordering half at a concrete
all-successful dual-stream run. -/
theorem c9_amended_witness :
    (beforeFirst isMergeStart
      (downloadAndMergeRun [vFmt 720, aFmt 1 128] .best envOk)).any
      (isFetchEndAt .tempVideo) = true ∧
    (beforeFirst isMergeStart
      (downloadAndMergeRun [vFmt 720, aFmt 1 128] .best envOk)).any
      (isFetchEndAt .tempAudio) = true :=
  (c9_amended [vFmt 720, aFmt 1 128] .best envOk).2 (by decide)

/-- A rendition picked by the dual-stream video selection is never the one
the single-stream selection picked: the video-only filter excludes every
format with audio, the combined filter requires it. -/
theorem videoSel_ne_singleSel {formats : List MediaFormat} {th th' : Option Nat}
    {sf f : MediaFormat}
    (hsel : selectSingleFormat formats th = some sf)
    (hv : selectVideoFormat formats th' = some f) : f ≠ sf := by
  have hsf := videoWithAudio_flags (selectSingle_mem hsel)
  have hvf := videoOnly_flags (selectVideo_mem hv)
  intro h
  rw [h, hsf.2] at hvf
  exact absurd hvf.2 (by simp)

/-- A rendition picked by the dual-stream audio selection is never the one
the single-stream selection picked: the audio-only filter excludes every
format with video, the combined filter requires it. -/
theorem audioSel_ne_singleSel {formats : List MediaFormat} {th : Option Nat}
    {sf f : MediaFormat}
    (hsel : selectSingleFormat formats th = some sf)
    (ha : selectAudioFormat formats = some f) : f ≠ sf := by
  have hsf := videoWithAudio_flags (selectSingle_mem hsel)
  have haf := audioOnly_flags (selectAudio_mem ha)
  intro h
  rw [h, hsf.1] at haf
  exact absurd haf.1 (by simp)

/-- Every stream fetch the dual-stream path starts uses either the rendition
its video selection picked (at the video temp path) or the one its audio
selection picked (at the audio temp path). -/
theorem mergeRun_fetch_mem {formats : List MediaFormat} {quality : Quality}
    {env : Env} {p : RolePath} {f : MediaFormat}
    (hmem : Event.fetchStart p f ∈ downloadAndMergeRun formats quality env) :
    (p = .tempVideo ∧
      selectVideoFormat formats (targetHeightOf quality) = some f) ∨
    (p = .tempAudio ∧ selectAudioFormat formats = some f) := by
  obtain ⟨es, ev, ea, em⟩ := env
  rcases hv : selectVideoFormat formats (targetHeightOf quality) with _ | vf <;>
    rcases ha : selectAudioFormat formats with _ | af <;>
    simp only [downloadAndMergeRun, hv, ha] at hmem <;>
    cases ev <;> cases ea <;> cases em <;>
    simp_all [List.mem_cons, Event.fetchStart.injEq] <;>
    tauto

/-- C8: when the single-stream fast path has a combined rendition and its
transfer fails mid-stream, the pipeline makes exactly one single-stream
attempt (the failed rendition is never fetched again — every non-artifact
fetch uses a different rendition), runs the dual-stream fallback on the same
rendition list at most once (at most one video and one audio fetch), and
sends exactly one terminal response (a dual-stream failure is terminal, with
no further retries). -/
theorem c8_theorem (formats : List MediaFormat) (quality : Quality) (env : Env)
    (sf : MediaFormat)
    (hsel : selectSingleFormat formats (targetHeightOf quality) = some sf)
    (hfail : env.singleFetch = .err) :
    (downloadMP4Run formats quality env).countP (isFetchStartAt .artifact) = 1 ∧
    (∀ p f, Event.fetchStart p f ∈ downloadMP4Run formats quality env →
      p = .artifact ∨ f ≠ sf) ∧
    (downloadMP4Run formats quality env).countP (isFetchStartAt .tempVideo) ≤ 1 ∧
    (downloadMP4Run formats quality env).countP (isFetchStartAt .tempAudio) ≤ 1 ∧
    (downloadMP4Run formats quality env).countP isRespond = 1 := by
  obtain ⟨es, ev, ea, em⟩ := env
  simp only at hfail
  subst hfail
  have hforms : ∀ p f,
      Event.fetchStart p f ∈ downloadMP4Run formats quality ⟨.err, ev, ea, em⟩ →
      p = .artifact ∨ f ≠ sf := by
    intro p f hmem
    have htr : downloadMP4Run formats quality ⟨.err, ev, ea, em⟩ =
        Event.fetchStart .artifact sf :: Event.fetchFail .artifact ::
          downloadAndMergeRun formats quality ⟨.err, ev, ea, em⟩ := by
      simp [downloadMP4Run, hsel]
    rw [htr] at hmem
    rcases List.mem_cons.mp hmem with h | hmem2
    · left
      injection h with h1 h2
    rcases List.mem_cons.mp hmem2 with h | h
    · exact absurd h (by simp)
    · right
      rcases mergeRun_fetch_mem h with ⟨_, hvf⟩ | ⟨_, haf⟩
      · exact videoSel_ne_singleSel hsel hvf
      · exact audioSel_ne_singleSel hsel haf
  refine ⟨?_, hforms, ?_, ?_, ?_⟩ <;>
  · simp only [downloadMP4Run, hsel]
    rcases hv : selectVideoFormat formats (targetHeightOf quality) with _ | vf <;>
      rcases ha : selectAudioFormat formats with _ | af <;>
      simp only [downloadAndMergeRun, hv, ha] <;>
      cases ev <;> cases ea <;> cases em <;>
      simp [List.countP_cons, isFetchStartAt, isRespond]

/-- C8 witness: the main count (exactly one single-stream attempt) at a
concrete input where the combined 720p transfer fails and the fallback uses
the video-only and audio-only renditions. -/
theorem c8_witness :
    (downloadMP4Run [cFmt 720, vFmt 720, aFmt 1 128] .best envSingleErr).countP
      (isFetchStartAt .artifact) = 1 :=
  (c8_theorem [cFmt 720, vFmt 720, aFmt 1 128] .best envSingleErr (cFmt 720)
    (by decide) (by decide)).1

/-- C6 witness: the amended theorem applied to the concrete tie input, with
its exact-match hypothesis discharged. -/
theorem c6_amended_witness :
    selectSingleFormat [cFmtS 1 720 100, cFmtS 2 720 200] (some 600) =
      firstMaxBy (fun f => f.height.getD 0)
        ((videoWithAudioFormats [cFmtS 1 720 100, cFmtS 2 720 200]).filter
          (fun f => f.height.getD 0 ≤ 600)) :=
  (c6_amended [cFmtS 1 720 100, cFmtS 2 720 200] 600).2.2 (by decide)

end Ytback
